import Mathlib

/-!
Verification of the rs-video-stitch render pipeline, worker and TTS adapter.

The Python sources (render-api/app/renderer.py, worker.py, tts.py) are
shallowly embedded below.  Python floats are modelled as rationals (ℚ),
Python `None` as `Option.none`, exceptions as `Except`, and the external
processes (FFmpeg, the TTS endpoints) as opaque outcome parameters fed to
the control-flow that the code wraps around them.
-/

namespace VideoStitch

/-! ### Support utilities (renderer.py) -/

/-- Models Python truthiness of a float: `x or y` picks `y` exactly when
`x == 0.0` (renderer.py line 526 and similar `or` chains). -/
def pyOrQ (a b : ℚ) : ℚ := if a = 0 then b else a

/-- Models `ffprobe_duration` (renderer.py lines 312-327): the probe output
is parsed with `float(...)`; a parse failure (`ValueError`) yields `0.0`
instead of raising.  The argument is the parse result of the probe output
(`none` when the output is not parseable as a number). -/
def ffprobe_duration (parsed : Option ℚ) : ℚ := parsed.getD 0

/-- Word count of a narration string as computed by Python
`text.strip().split()`: split on whitespace runs, dropping empty pieces. -/
def pythonWords (text : String) : ℕ :=
  ((text.split Char.isWhitespace).filter (fun w => w ≠ "")).length

/-- Models `estimate_seconds` (renderer.py lines 330-332):
`max(floor, (max(1, len(words)) / wpm) * 60)` with wpm=165, floor=5.0. -/
def estimate_seconds (text : String) : ℚ :=
  max 5 (((max 1 (pythonWords text) : ℕ) : ℚ) / 165 * 60)

/-- Models `audio_duration = ffprobe_duration(audio_wav) or
estimate_seconds(voice_text)` (renderer.py line 526). -/
def sceneAudioDuration (parsed : Option ℚ) (text : String) : ℚ :=
  pyOrQ (ffprobe_duration parsed) (estimate_seconds text)

/-! ### xTTS endpoint resolution (tts.py) -/

/-- Python `a or b` on optional strings: `a` is falsy when it is `None` or
the empty string. -/
def pyOrS (a b : Option String) : Option String :=
  match a with
  | some s => if s = "" then b else some s
  | none => b

/-- Models `resolved_url = api_url or os.getenv("XTTS_API_URL") or
"http://xtts:5002"` (tts.py line 55). -/
def resolveXttsUrl (apiUrl envUrl : Option String) : String :=
  match pyOrS (pyOrS apiUrl envUrl) (some "http://xtts:5002") with
  | some s => s
  | none => ""

/-- Models the guard `if not resolved_url: raise TTSConfigurationError(...)`
(tts.py lines 56-57): the error value is the configuration error, the ok
value is the resolved URL the function proceeds with. -/
def xttsUrlCheck (apiUrl envUrl : Option String) : Except String String :=
  let u := resolveXttsUrl apiUrl envUrl
  if u = "" then Except.error "XTTS_API_URL is not configured" else Except.ok u

/-! ### Timeline reconciliation (`_timeline_durations`, renderer.py 218-284) -/

/-- One element of a scene's `timeline` list.  `image = none` models a
missing or falsy (empty) `image` field; `duration = none` models a value
that `float(...)` rejects (`TypeError`/`ValueError`). -/
structure TimelineEntry where
  image : Option String
  duration : Option ℚ
deriving DecidableEq

/-- First validation pass over the raw timeline (renderer.py 231-251):
each entry must carry an image name and a positive numeric duration,
otherwise the whole timeline is rejected (`none`). -/
def parseEntries : List TimelineEntry → Option (List (String × ℚ))
  | [] => some []
  | e :: rest =>
    match e.image, e.duration with
    | some img, some d =>
      if img = "" then none
      else if d ≤ 0 then none
      else
        match parseEntries rest with
        | some tail => some ((img, d) :: tail)
        | none => none
    | _, _ => none

/-- Models `remaining.pop(match_index)` driven by
`next(idx for ... if name == image)` (renderer.py 256-260): remove the
first entry named `img`, returning its duration and the rest. -/
def removeFirst (img : String) : List (String × ℚ) → Option (ℚ × List (String × ℚ))
  | [] => none
  | (name, d) :: rest =>
    if name = img then some (d, rest)
    else
      match removeFirst img rest with
      | some (d', rest') => some (d', (name, d) :: rest')
      | none => none

/-- The matching loop of renderer.py 253-261: for each configured image, in
order, consume its first timeline entry; fail if an image has none. -/
def extractDurations : List String → List (String × ℚ) → Option (List ℚ × List (String × ℚ))
  | [], remaining => some ([], remaining)
  | img :: rest, remaining =>
    match removeFirst img remaining with
    | none => none
    | some (d, remaining') =>
      match extractDurations rest remaining' with
      | some (ds, leftover) => some (d :: ds, leftover)
      | none => none

/-- Models `ordered[-1] += delta` (renderer.py 277): add `δ` to the last
element of a list. -/
def addToLast (δ : ℚ) : List ℚ → List ℚ
  | [] => []
  | [d] => [d + δ]
  | d :: rest => d :: addToLast δ rest

/-- The final flooring pass of renderer.py 279-282: raise every duration to
at least `minDur`. -/
def floorAll (minDur : ℚ) (l : List ℚ) : List ℚ :=
  l.map (fun d => if d < minDur then minDur else d)

/-- Sum of the raw timeline durations (`timeline_total` before matching);
only meaningful when every entry parses. -/
def timelineSumOf (timeline : List TimelineEntry) : ℚ :=
  (timeline.map (fun e => e.duration.getD 0)).sum

/-- Shallow embedding of `_timeline_durations` (renderer.py 218-284).
`sceneDuration = none` models both an absent scene `duration` and one that
`float(...)` rejects (both give `explicit_duration = 0.0`).  A `timeline`
that is absent, not a list, or empty is modelled as `[]`. -/
def timeline_durations (timeline : List TimelineEntry) (images : List String)
    (fps : ℤ) (audioDuration : ℚ) (sceneDuration : Option ℚ) : Option (List ℚ) :=
  if timeline.isEmpty then none
  else
    match parseEntries timeline with
    | none => none
    | some entries =>
      match extractDurations images entries with
      | none => none
      | some (ordered, remaining) =>
        if ¬ remaining.isEmpty then none
        else
          let timelineTotal := ordered.sum
          let target := max (max timelineTotal (sceneDuration.getD 0)) audioDuration
          let δ := target - timelineTotal
          let stretched :=
            if ordered.isEmpty then ordered
            else if δ > 1/1000 then addToLast δ ordered else ordered
          some (floorAll (1 / ((max 1 fps : ℤ) : ℚ)) stretched)

/-- The even-allocation fallback (renderer.py 543-546):
`max(min_shot, min(max_shot, max(1.0, audio_duration - 0.4) / max(1, len(images))))`. -/
def evenAllocation (minShot maxShot audio : ℚ) (imageCount : ℕ) : ℚ :=
  max minShot (min maxShot (max 1 (audio - 2/5) / (max 1 imageCount : ℚ)))

/-- The duration-selection step of `render_project` (renderer.py 535-547):
`if timeline_durations:` falls back to even allocation when the result is
`None` or an empty list. -/
def perImageDurations (timeline : List TimelineEntry) (images : List String)
    (fps : ℤ) (audio : ℚ) (sceneDuration : Option ℚ) (minShot maxShot : ℚ) : List ℚ :=
  match timeline_durations timeline images fps audio sceneDuration with
  | some ds =>
    if ds.isEmpty then
      List.replicate images.length (evenAllocation minShot maxShot audio images.length)
    else ds
  | none => List.replicate images.length (evenAllocation minShot maxShot audio images.length)

/-! ### Progress reporting (render_project checkpoints + worker persistence) -/

/-- The value persisted for a scene's AUDIO_PREP checkpoint
(renderer.py line 462: `0.1 + index * 0.02`), clamped by the worker's
`min(1.0, value)` (worker.py line 68). -/
def audioPrepValue (i : ℕ) : ℚ := min 1 (1/10 + (i : ℚ) * (1/50))

/-- The value persisted for a scene's SCENE_BUILD checkpoint
(renderer.py line 615: `0.2 + (index / max(1, len(scenes))) * 0.6`),
clamped by the worker. -/
def sceneBuildValue (n i : ℕ) : ℚ := min 1 (1/5 + ((i : ℚ) / (max 1 n : ℚ)) * (3/5))

/-- The per-scene checkpoint reports of `render_project`'s main loop, for
scenes `i, i+1, ...` with `k` scenes left out of `n` total: each iteration
reports AUDIO_PREP then SCENE_BUILD. -/
def sceneCheckpoints (n : ℕ) : ℕ → ℕ → List ℚ
  | 0, _ => []
  | k + 1, i => audioPrepValue i :: sceneBuildValue n i :: sceneCheckpoints n k (i + 1)

/-- The full sequence of progress values persisted for a successful job on
a project with `n` scenes: 0.02 at dequeue (worker.py line 59), 0.05 at
VALIDATE, the per-scene checkpoints, 0.9 at CONCAT, 0.98 at FINALIZE and
1.0 terminal (worker.py line 95). -/
def progressValues (n : ℕ) : List ℚ :=
  1/50 :: 1/20 :: (sceneCheckpoints n n 0 ++ [9/10, 49/50, 1])

/-- A list is monotonically non-decreasing. -/
def isMonotone : List ℚ → Bool
  | [] => true
  | [_] => true
  | a :: b :: rest => (decide (a ≤ b)) && isMonotone (b :: rest)

/-! ### Per-scene TTS error handling (renderer.py 463-488) -/

/-- Outcome of the selected provider's synthesis call for one scene. -/
inductive TTSOutcome where
  | ok
  | configError (msg : String)
  | runtimeError (msg : String)
deriving DecidableEq

/-- Errors escaping the audio-resolution step of `render_project`. -/
inductive SceneAudioError where
  | config (msg : String)
  | fatal (msg : String)
deriving DecidableEq

/-- Models `api_label = tts_api.upper() if tts_api else "TTS"`
(renderer.py line 485). -/
def apiLabel (ttsApi : String) : String :=
  if ttsApi = "" then "TTS" else ttsApi.toUpper

/-- The `try/except` around the provider call (renderer.py 465-488):
`TTSConfigurationError` is re-raised unmodified; any other exception is
wrapped in a `RuntimeError` carrying the provider label and scene index. -/
def resolveSceneAudio (ttsApi idx : String) (outcome : TTSOutcome) :
    Except SceneAudioError Unit :=
  match outcome with
  | .ok => Except.ok ()
  | .configError m => Except.error (SceneAudioError.config m)
  | .runtimeError m =>
    Except.error (SceneAudioError.fatal
      (apiLabel ttsApi ++ " synthesis failed for scene " ++ idx ++ ": " ++ m))

/-! ### Worker terminal handling (worker.py 70-109) -/

/-- Python string slicing `s[:n]`: the first `n` characters. -/
def pyTruncate (s : String) (n : ℕ) : String := String.mk (s.data.take n)

/-- The fields written by `_update_job` at job completion. -/
structure JobUpdate where
  status : String
  stage : String
  progress : ℚ
  error : Option String
deriving DecidableEq

/-- A pipeline failure as seen by the worker: the exception message
(`str(exc)`) and the full `traceback.format_exc()` text. -/
structure PipelineFailure where
  message : String
  traceback : String
deriving DecidableEq

/-- What the worker leaves behind for one job (worker.py 70-109): the final
job update, the log lines appended by the handler, and whether the log
file handle was closed (the `finally` block). -/
structure WorkerExit where
  update : JobUpdate
  logAppended : List String
  logClosed : Bool
deriving DecidableEq

/-- The worker's terminal handling of one pipeline invocation: success path
records SUCCEEDED/FINALIZE/1.0, failure path records FAILED/ERROR/1.0 with
the message truncated to 2000 characters and the traceback logged; the log
handle is closed in `finally` on both paths. -/
def finishJob (result : Except PipelineFailure String) : WorkerExit :=
  match result with
  | Except.ok path =>
    { update := { status := "SUCCEEDED", stage := "FINALIZE", progress := 1, error := none }
      logAppended := ["Job completed: " ++ path]
      logClosed := true }
  | Except.error f =>
    { update := { status := "FAILED", stage := "ERROR", progress := 1,
                  error := some (pyTruncate f.message 2000) }
      logAppended := ["Job failed", f.traceback]
      logClosed := true }

/-! ### Segment synthesis: frame count and zoom expression (renderer.py 557-566) -/

/-- Python `round` on a float: round half to even. -/
def pyRound (q : ℚ) : ℤ :=
  let f := ⌊q⌋
  let r := q - (f : ℚ)
  if r < 1/2 then f
  else if 1/2 < r then f + 1
  else if f % 2 = 0 then f else f + 1

/-- Models `frames = max(1, round(duration_seconds * fps))`
(renderer.py line 557). -/
def framesFor (duration : ℚ) (fps : ℤ) : ℤ := max 1 (pyRound (duration * (fps : ℚ)))

/-- The zoom expression handed to `zoompan` (renderer.py 559-566).
`zoom_delta = 1.05 - 1.0` is formatted with `%.6f` as `0.050000`. -/
def zoomExpr (frames : ℤ) : String :=
  if frames ≤ 1 then "1"
  else "1+0.050000*(on/" ++ toString (frames - 1) ++ ")"

/-! ### Azure retry loop (tts.py 185-218) -/

/-- The outcome of one `speak_text_async(...).get()` attempt: either the
synthesis completed, or it failed (exception or cancellation) with a
message. -/
inductive AzureAttempt where
  | success
  | failure (msg : String)
deriving DecidableEq

/-- The message of a failed attempt (empty for a success). -/
def failMsg : AzureAttempt → String
  | .success => ""
  | .failure m => m

/-- The observable trace of `synthesize_azure`'s retry loop: the final
result, how many attempts were made, and the sleeps taken between
consecutive attempts (each of `backoff ** attempt` seconds). -/
structure AzureTrace where
  result : Except String Unit
  attemptsMade : ℕ
  sleeps : List ℚ

/-- The body of `for attempt in range(1, max(1, retries) + 1)` (tts.py
186-215): `attempt` is the current attempt number, `fuel` the number of
attempts still allowed, `lastErr` the last observed error message.  After
a failed attempt the loop sleeps `backoff ** attempt` iff
`attempt < retries`; when attempts are exhausted the last error is
raised. -/
def azureGo (outcome : ℕ → AzureAttempt) (backoff : ℚ) (retries : ℕ) :
    ℕ → ℕ → String → AzureTrace
  | _, 0, lastErr => ⟨Except.error lastErr, 0, []⟩
  | attempt, fuel + 1, _ =>
    match outcome attempt with
    | .success => ⟨Except.ok (), 1, []⟩
    | .failure m =>
      let here := if attempt < retries then [backoff ^ attempt] else []
      let rest := azureGo outcome backoff retries (attempt + 1) fuel m
      ⟨rest.result, 1 + rest.attemptsMade, here ++ rest.sleeps⟩

/-- Models `synthesize_azure`'s retry loop as a whole: attempts are
numbered from 1 and at most `max 1 retries` are made. -/
def synthesize_azure_loop (outcome : ℕ → AzureAttempt) (backoff : ℚ)
    (retries : ℕ) : AzureTrace :=
  azureGo outcome backoff retries 1 (max 1 retries) ""

/-! ### Final assembly (renderer.py 440-778) -/

/-- One scene of the scene script, as consumed by `render_project`. -/
structure Scene where
  images : List String
  vo : String
  title : String
  timeline : List TimelineEntry
  duration : Option ℚ
deriving DecidableEq

/-- Python `f"{index:02d}"`. -/
def pad2 (i : ℕ) : String := if i < 10 then "0" ++ toString i else toString i

/-- The per-scene clip name `work/scene_{idx}.mp4` (renderer.py 659). -/
def sceneFileName (i : ℕ) : String := "scene_" ++ pad2 i ++ ".mp4"

/-- The `scene_files` accumulation of `render_project`'s main loop: one
clip appended per scene (renderer.py 736). -/
def buildSceneFiles : ℕ → List Scene → List String
  | _, [] => []
  | i, _ :: rest => sceneFileName i :: buildSceneFiles (i + 1) rest

/-- The concat filter string of renderer.py 744-745:
`[0:v][0:a][1:v][1:a]...concat=n=N:v=1:a=1[v][a]`. -/
def concatFilter (n : ℕ) : String :=
  String.join ((List.range n).map fun i =>
    "[" ++ toString i ++ ":v][" ++ toString i ++ ":a]")
  ++ "concat=n=" ++ toString n ++ ":v=1:a=1[v][a]"

/-- The file-level plan produced by a successful render. -/
structure RenderOutcome where
  sceneClips : List String
  concatInputCount : ℕ
  filterGraph : String
  finalFileName : String
deriving DecidableEq

/-- The orchestration skeleton of `render_project` (renderer.py 379-778):
fail when the script has no scenes, otherwise produce one clip per scene,
concatenate exactly those clips, and write `output_dir / output_name`
(so the returned path's file name is the requested output name). -/
def renderPlan (scenes : List Scene) (outputName : String) :
    Except String RenderOutcome :=
  if scenes.isEmpty then Except.error "No scenes defined in scenes.json"
  else
    let clips := buildSceneFiles 0 scenes
    Except.ok
      { sceneClips := clips
        concatInputCount := clips.length
        filterGraph := concatFilter clips.length
        finalFileName := outputName }

/-! ### Concrete inputs used by counterexamples and witnesses -/

/-- A complete, valid timeline (every image has exactly one entry with a
positive duration) whose first duration is below one frame at 30 fps. -/
def tinyEntryTimeline : List TimelineEntry :=
  [⟨some "a", some (1/1000)⟩, ⟨some "b", some 10⟩]

/-- A complete, valid timeline whose single duration is well above one
frame at 30 fps. -/
def demoTimeline : List TimelineEntry := [⟨some "a", some 2⟩]

/-- A minimal one-scene script. -/
def demoScene : Scene :=
  { images := ["a.png"], vo := "Hello world", title := "", timeline := [], duration := none }

/-! ## Theorems -/

/-! ### C9: the xTTS missing-endpoint branch is unreachable -/

theorem resolveXttsUrl_ne_empty (apiUrl envUrl : Option String) :
    resolveXttsUrl apiUrl envUrl ≠ "" := by
  unfold resolveXttsUrl pyOrS
  rcases apiUrl with _ | a
  · rcases envUrl with _ | e
    · simp
    · by_cases he : e = "" <;> simp [he]
  · by_cases ha : a = ""
    · rcases envUrl with _ | e
      · simp [ha]
      · by_cases he : e = "" <;> simp [ha, he]
    · simp [ha]

/-- C9: with no `api_url` argument and no `XTTS_API_URL` environment value,
the resolved URL is the non-empty built-in default `http://xtts:5002`, and
the `if not resolved_url` configuration-error branch of `synthesize_xtts`
never fires (for any inputs at all). -/
theorem xtts_url_never_config_error (apiUrl envUrl : Option String) :
    xttsUrlCheck apiUrl envUrl = Except.ok (resolveXttsUrl apiUrl envUrl)
    ∧ resolveXttsUrl none none = "http://xtts:5002" := by
  refine ⟨?_, rfl⟩
  unfold xttsUrlCheck
  rw [if_neg (resolveXttsUrl_ne_empty apiUrl envUrl)]

/-! ### C10: duration probing is total and zero probes fall back to the
word-count estimate -/

/-- C10: `ffprobe_duration` yields `0.0` on an unparseable probe output
instead of raising, and whenever the probed duration is `0.0` the pipeline
substitutes `max(5.0, words / 165 * 60)` for the scene's audio duration. -/
theorem ffprobe_total_and_estimate (parsed : Option ℚ) (text : String) :
    ffprobe_duration none = 0
    ∧ (ffprobe_duration parsed = 0 →
        sceneAudioDuration parsed text
          = max 5 (((max 1 (pythonWords text) : ℕ) : ℚ) / 165 * 60)) := by
  refine ⟨rfl, fun h => ?_⟩
  simp only [sceneAudioDuration, pyOrQ, h, if_pos rfl]
  rfl

theorem ffprobe_total_and_estimate_witness :
    sceneAudioDuration none "hello world"
      = max 5 (((max 1 (pythonWords "hello world") : ℕ) : ℚ) / 165 * 60) :=
  (ffprobe_total_and_estimate none "hello world").2 rfl

/-! ### C3: the even-allocation fallback -/

/-- C3: when a scene has no usable timeline (absent timeline, an entry
missing its image, a non-positive or non-numeric duration, or a mismatched
image set — all the cases in which `_timeline_durations` returns `None`),
every image of the scene receives the identical duration
`max(minShot, min(maxShot, max(1.0, audioDuration - 0.4) / imageCount))`. -/
theorem even_allocation_on_fallback (timeline : List TimelineEntry)
    (images : List String) (fps : ℤ) (audio : ℚ) (sceneDuration : Option ℚ)
    (minShot maxShot : ℚ)
    (h : timeline_durations timeline images fps audio sceneDuration = none) :
    perImageDurations timeline images fps audio sceneDuration minShot maxShot
      = List.replicate images.length (evenAllocation minShot maxShot audio images.length)
    ∧ ∀ d ∈ perImageDurations timeline images fps audio sceneDuration minShot maxShot,
        d = evenAllocation minShot maxShot audio images.length := by
  have he : perImageDurations timeline images fps audio sceneDuration minShot maxShot
      = List.replicate images.length (evenAllocation minShot maxShot audio images.length) := by
    unfold perImageDurations
    rw [h]
  refine ⟨he, fun d hd => ?_⟩
  rw [he] at hd
  exact List.eq_of_mem_replicate hd

theorem even_allocation_on_fallback_witness :
    perImageDurations [] ["a"] 30 3 none (5/2) 8
      = List.replicate 1 (evenAllocation (5/2) 8 3 1) :=
  (even_allocation_on_fallback [] ["a"] 30 3 none (5/2) 8 rfl).1

/-! ### C4: TTS error propagation in the audio-resolution step -/

/-- C4: during per-scene audio resolution, a `TTSConfigurationError` from
the selected provider propagates unmodified (no retry, no fallback), while
any other provider exception is re-raised as a fatal error whose message
carries the provider label and the scene index. -/
theorem tts_error_propagation (ttsApi idx m : String) :
    resolveSceneAudio ttsApi idx (TTSOutcome.configError m)
      = Except.error (SceneAudioError.config m)
    ∧ resolveSceneAudio ttsApi idx (TTSOutcome.runtimeError m)
      = Except.error (SceneAudioError.fatal
          (apiLabel ttsApi ++ " synthesis failed for scene " ++ idx ++ ": " ++ m)) :=
  ⟨rfl, rfl⟩

/-! ### C5: worker failure handling -/

/-- C5: on any pipeline failure the worker sets the job to FAILED, stage
ERROR, progress 1.0 and `error` = the failure message truncated to at most
2000 characters, appends the full traceback to the job log, and closes the
log file handle on both the failure and the success exit path. -/
theorem worker_failure_handling (f : PipelineFailure) (p : String) :
    (finishJob (Except.error f)).update.status = "FAILED"
    ∧ (finishJob (Except.error f)).update.stage = "ERROR"
    ∧ (finishJob (Except.error f)).update.progress = 1
    ∧ (finishJob (Except.error f)).update.error = some (pyTruncate f.message 2000)
    ∧ (pyTruncate f.message 2000).length ≤ 2000
    ∧ f.traceback ∈ (finishJob (Except.error f)).logAppended
    ∧ (finishJob (Except.error f)).logClosed = true
    ∧ (finishJob (Except.ok p)).logClosed = true := by
  refine ⟨rfl, rfl, rfl, rfl, ?_, ?_, rfl, rfl⟩
  · show (f.message.data.take 2000).length ≤ 2000
    rw [List.length_take]
    exact min_le_left _ _
  · simp [finishJob]

/-! ### C6: frame count and zoom expression -/

/-- C6: each image segment gets `frames = max(1, round(duration * fps))`
frames; a one-frame segment gets the constant zoom expression `1` (the
`frames - 1` divisor is never `0`), and a longer segment gets the linear
ramp `1+0.050000*(on/(frames-1))` whose divisor `frames - 1` is nonzero. -/
theorem zoom_expr_safety (d : ℚ) (fps : ℤ) :
    1 ≤ framesFor d fps
    ∧ (framesFor d fps = 1 → zoomExpr (framesFor d fps) = "1")
    ∧ (1 < framesFor d fps →
        framesFor d fps - 1 ≠ 0
        ∧ zoomExpr (framesFor d fps)
            = "1+0.050000*(on/" ++ toString (framesFor d fps - 1) ++ ")") := by
  refine ⟨le_max_left _ _, fun h => ?_, fun h => ⟨by omega, ?_⟩⟩
  · rw [h]
    rfl
  · unfold zoomExpr
    rw [if_neg (by omega)]

theorem zoom_expr_safety_witness :
    zoomExpr (framesFor 2 30) = "1+0.050000*(on/" ++ toString (framesFor 2 30 - 1) ++ ")"
    ∧ zoomExpr (framesFor (1/100) 30) = "1" := by
  have h60 : framesFor 2 30 = 60 := by with_unfolding_all rfl
  have h1 : framesFor (1/100) 30 = 1 := by with_unfolding_all rfl
  exact ⟨((zoom_expr_safety 2 30).2.2 (by rw [h60]; norm_num)).2,
    (zoom_expr_safety (1/100) 30).2.1 h1⟩

/-! ### C8: one clip per scene, one concatenated output with the requested
name -/

theorem buildSceneFiles_length : ∀ (i : ℕ) (scenes : List Scene),
    (buildSceneFiles i scenes).length = scenes.length := by
  intro i scenes
  induction scenes generalizing i with
  | nil => rfl
  | cons s rest ih => simp [buildSceneFiles, ih]

/-- C8: a scene script with `N ≥ 1` scenes yields exactly `N` per-scene
clip files, the final concat invocation receives exactly those `N` clips
(`concat=n=N`), and the returned path's file name is the requested output
name. -/
theorem render_clip_count (scenes : List Scene) (outputName : String)
    (h : scenes ≠ []) :
    ∃ plan, renderPlan scenes outputName = Except.ok plan
      ∧ plan.sceneClips.length = scenes.length
      ∧ plan.concatInputCount = scenes.length
      ∧ plan.filterGraph = concatFilter scenes.length
      ∧ plan.finalFileName = outputName := by
  cases scenes with
  | nil => exact absurd rfl h
  | cons s rest =>
    have hlen := buildSceneFiles_length 0 (s :: rest)
    exact ⟨_, rfl, hlen, hlen, by rw [hlen], rfl⟩

theorem render_clip_count_witness :
    ∃ plan, renderPlan [demoScene] "output.mp4" = Except.ok plan
      ∧ plan.sceneClips.length = 1
      ∧ plan.concatInputCount = 1
      ∧ plan.filterGraph = concatFilter 1
      ∧ plan.finalFileName = "output.mp4" :=
  render_clip_count [demoScene] "output.mp4" (by simp)

/-! ### C1: progress monotonicity -/

/-- C1 counterexample: already with two scenes the persisted progress
sequence is not monotonically non-decreasing — SCENE_BUILD of scene 0
reports 0.2 and the following AUDIO_PREP of scene 1 reports only 0.12. -/
theorem progress_not_monotone_two_scenes :
    isMonotone (progressValues 2) = false := by
  with_unfolding_all rfl

/-- C1 (amended): the sequence of progress values persisted while the job
is RUNNING is monotonically non-decreasing exactly when the project has a
single scene; with two or more scenes the AUDIO_PREP report of scene 1
(`0.1 + 0.02`) falls below the SCENE_BUILD report of scene 0 (`0.2`). -/
theorem progress_monotone_iff_single_scene (n : ℕ) (hn : 1 ≤ n) :
    isMonotone (progressValues n) = true ↔ n = 1 := by
  constructor
  · intro h
    by_contra hne
    obtain ⟨m, rfl⟩ : ∃ m, n = m + 2 := ⟨n - 2, by omega⟩
    have hsb : sceneBuildValue (m + 2) 0 = 1/5 := by
      simp [sceneBuildValue]
      norm_num
    have hap : audioPrepValue 1 = 3/25 := by
      simp [audioPrepValue]
      norm_num
    simp only [progressValues, sceneCheckpoints, List.cons_append, isMonotone,
      Bool.and_eq_true, decide_eq_true_eq] at h
    have hcontra := h.2.2.2.1
    rw [hsb, hap] at hcontra
    norm_num at hcontra
  · intro h
    subst h
    with_unfolding_all rfl

theorem progress_monotone_iff_single_scene_witness :
    isMonotone (progressValues 1) = true :=
  (progress_monotone_iff_single_scene 1 (le_refl 1)).mpr rfl

/-! ### C2: timeline reconciliation helper lemmas -/

theorem parseEntries_spec : ∀ (tl : List TimelineEntry) (entries : List (String × ℚ)),
    parseEntries tl = some entries →
    (entries.map Prod.snd).sum = timelineSumOf tl
    ∧ entries.length = tl.length
    ∧ ∀ p ∈ entries, ∃ en ∈ tl, en.duration = some p.2 := by
  intro tl
  induction tl with
  | nil =>
    intro entries h
    simp only [parseEntries, Option.some.injEq] at h
    subst h
    simp [timelineSumOf]
  | cons e rest ih =>
    intro entries h
    rcases he : e.image with _ | img
    · simp [parseEntries, he] at h
    · rcases hd : e.duration with _ | d
      · simp [parseEntries, he, hd] at h
      · simp only [parseEntries, he, hd] at h
        by_cases h1 : img = ""
        · simp [h1] at h
        · rw [if_neg h1] at h
          by_cases h2 : d ≤ 0
          · simp [h2] at h
          · rw [if_neg h2] at h
            rcases hr : parseEntries rest with _ | tail <;> rw [hr] at h
            · simp at h
            · simp only [Option.some.injEq] at h
              subst h
              obtain ⟨ihsum, ihlen, ihmem⟩ := ih tail hr
              refine ⟨?_, by simp [ihlen], ?_⟩
              · simp only [timelineSumOf, List.map_cons, List.sum_cons, hd,
                  Option.getD_some] at ihsum ⊢
                rw [ihsum]
              · intro p hp
                rcases List.mem_cons.mp hp with hp1 | hp2
                · subst hp1
                  exact ⟨e, List.mem_cons_self _ _, hd⟩
                · obtain ⟨en, hen, hend⟩ := ihmem p hp2
                  exact ⟨en, List.mem_cons_of_mem _ hen, hend⟩

theorem removeFirst_spec : ∀ (img : String) (l : List (String × ℚ)) (d : ℚ)
    (rest : List (String × ℚ)), removeFirst img l = some (d, rest) →
    d + (rest.map Prod.snd).sum = (l.map Prod.snd).sum
    ∧ rest.length + 1 = l.length
    ∧ (∃ nm, (nm, d) ∈ l)
    ∧ ∀ p ∈ rest, p ∈ l := by
  intro img l
  induction l with
  | nil => intro d rest h; simp [removeFirst] at h
  | cons q tail ih =>
    obtain ⟨name, qd⟩ := q
    intro d rest h
    by_cases hn : name = img
    · rw [removeFirst, if_pos hn] at h
      simp only [Option.some.injEq, Prod.mk.injEq] at h
      obtain ⟨rfl, rfl⟩ := h
      refine ⟨by simp, by simp, ⟨name, List.mem_cons_self _ _⟩, ?_⟩
      intro p hp
      exact List.mem_cons_of_mem _ hp
    · rcases hr : removeFirst img tail with _ | ⟨d', rest'⟩
      · simp [removeFirst, if_neg hn, hr] at h
      · simp only [removeFirst, if_neg hn, hr, Option.some.injEq, Prod.mk.injEq] at h
        rcases h with ⟨h3, h4⟩
        obtain ⟨ihsum, ihlen, ⟨nm, hnm⟩, ihsub⟩ := ih d' rest' hr
        subst h3
        subst h4
        refine ⟨?_, by simp [← ihlen], ⟨nm, List.mem_cons_of_mem _ hnm⟩, ?_⟩
        · simp only [List.map_cons, List.sum_cons] at ihsum ⊢
          linarith
        · intro p hp
          rcases List.mem_cons.mp hp with hp1 | hp2
          · subst hp1
            exact List.mem_cons_self _ _
          · exact List.mem_cons_of_mem _ (ihsub p hp2)

theorem extractDurations_spec : ∀ (imgs : List String)
    (entries rem : List (String × ℚ)) (ds : List ℚ),
    extractDurations imgs entries = some (ds, rem) →
    ds.sum + (rem.map Prod.snd).sum = (entries.map Prod.snd).sum
    ∧ ds.length = imgs.length
    ∧ rem.length + imgs.length = entries.length
    ∧ ∀ d ∈ ds, ∃ nm, (nm, d) ∈ entries := by
  intro imgs
  induction imgs with
  | nil =>
    intro entries rem ds h
    simp only [extractDurations, Option.some.injEq, Prod.mk.injEq] at h
    obtain ⟨rfl, rfl⟩ := h
    simp
  | cons img rest ih =>
    intro entries rem ds h
    rcases hr : removeFirst img entries with _ | ⟨d, entries'⟩
    · simp [extractDurations, hr] at h
    · simp only [extractDurations, hr] at h
      rcases he : extractDurations rest entries' with _ | ⟨tailDs, leftover⟩
      · simp [he] at h
      · simp only [he, Option.some.injEq, Prod.mk.injEq] at h
        rcases h with ⟨h1, h2⟩
        obtain ⟨hsum, hlen, ⟨nm, hnm⟩, hsub⟩ := removeFirst_spec img entries d entries' hr
        obtain ⟨ihsum, ihlen, ihrem, ihmem⟩ := ih entries' leftover tailDs he
        subst h1
        subst h2
        refine ⟨?_, by simp [ihlen], by simp only [List.length_cons]; omega, ?_⟩
        · simp only [List.sum_cons]
          linarith
        · intro x hx
          rcases List.mem_cons.mp hx with hx1 | hx2
          · subst hx1
            exact ⟨nm, hnm⟩
          · obtain ⟨nm', hm'⟩ := ihmem x hx2
            exact ⟨nm', hsub _ hm'⟩

theorem addToLast_cons_ne_nil (δ : ℚ) (a : ℚ) (l : List ℚ) :
    ∃ b m, addToLast δ (a :: l) = b :: m := by
  cases l with
  | nil => exact ⟨a + δ, [], rfl⟩
  | cons c cs => exact ⟨a, addToLast δ (c :: cs), rfl⟩

theorem addToLast_sum (δ : ℚ) : ∀ (l : List ℚ), l ≠ [] →
    (addToLast δ l).sum = l.sum + δ := by
  intro l
  induction l with
  | nil => intro h; exact absurd rfl h
  | cons a tail ih =>
    intro _
    cases tail with
    | nil => simp [addToLast]
    | cons c cs =>
      have := ih (by simp)
      simp only [addToLast, List.sum_cons] at this ⊢
      linarith

theorem addToLast_length (δ : ℚ) : ∀ (l : List ℚ),
    (addToLast δ l).length = l.length := by
  intro l
  induction l with
  | nil => rfl
  | cons a tail ih =>
    cases tail with
    | nil => rfl
    | cons c cs => simp only [addToLast, List.length_cons] at ih ⊢; omega

theorem addToLast_dropLast (δ : ℚ) : ∀ (l : List ℚ),
    (addToLast δ l).dropLast = l.dropLast := by
  intro l
  induction l with
  | nil => rfl
  | cons a tail ih =>
    cases tail with
    | nil => rfl
    | cons c cs =>
      obtain ⟨b, m, hb⟩ := addToLast_cons_ne_nil δ c cs
      show (a :: addToLast δ (c :: cs)).dropLast = (a :: c :: cs).dropLast
      rw [hb, List.dropLast_cons₂, ← hb, ih, List.dropLast_cons₂]

theorem addToLast_lower (δ c : ℚ) (hδ : 0 ≤ δ) : ∀ (l : List ℚ),
    (∀ y ∈ l, c ≤ y) → ∀ x ∈ addToLast δ l, c ≤ x := by
  intro l
  induction l with
  | nil => intro _ x hx; simp [addToLast] at hx
  | cons a tail ih =>
    intro hall x hx
    cases tail with
    | nil =>
      simp only [addToLast, List.mem_singleton] at hx
      subst hx
      have := hall a (List.mem_cons_self _ _)
      linarith
    | cons b bs =>
      simp only [addToLast, List.mem_cons] at hx
      rcases hx with rfl | hx2
      · exact hall x (List.mem_cons_self _ _)
      · exact ih (fun y hy => hall y (List.mem_cons_of_mem _ hy)) x hx2

theorem floorAll_lower (m : ℚ) (l : List ℚ) : ∀ x ∈ floorAll m l, m ≤ x := by
  intro x hx
  simp only [floorAll, List.mem_map] at hx
  obtain ⟨y, _, hxy⟩ := hx
  by_cases hy : y < m
  · rw [if_pos hy] at hxy
    exact hxy ▸ le_refl m
  · rw [if_neg hy] at hxy
    exact hxy ▸ not_lt.mp hy

theorem floorAll_eq_self (m : ℚ) : ∀ (l : List ℚ), (∀ x ∈ l, m ≤ x) →
    floorAll m l = l := by
  intro l
  induction l with
  | nil => intro _; rfl
  | cons a tail ih =>
    intro hall
    have ha : ¬ a < m := not_lt.mpr (hall a (List.mem_cons_self _ _))
    simp only [floorAll, List.map_cons, if_neg ha]
    have := ih (fun x hx => hall x (List.mem_cons_of_mem _ hx))
    simp only [floorAll] at this
    rw [this]

/-- C2 counterexample: the timeline `[a: 0.001s, b: 10s]` at 30 fps with no
explicit scene duration and zero audio duration is complete and valid
(every image has exactly one entry with a positive finite duration), yet
the computed durations `[1/30, 10]` sum to `301/30 ≈ 10.033`, further than
any floating-point tolerance (even `1/100`) from
`max(timelineTotal, explicitDuration, audioDuration) = 10.001`, because
the one-frame floor is applied after the stretch. -/
theorem timeline_sum_counterexample :
    timeline_durations tinyEntryTimeline ["a", "b"] 30 0 none = some [1/30, 10]
    ∧ ¬ (|([(1:ℚ)/30, 10] : List ℚ).sum
          - max (max (timelineSumOf tinyEntryTimeline) ((none : Option ℚ).getD 0)) 0|
        ≤ 1/100) := by
  constructor
  · with_unfolding_all rfl
  · have h1 : timelineSumOf tinyEntryTimeline = 10001/1000 := by
      with_unfolding_all rfl
    rw [h1]
    simp only [List.sum_cons, List.sum_nil, Option.getD_none]
    rw [abs_le]
    intro hc
    have h2 : max (max (10001/1000 : ℚ) 0) 0 = 10001/1000 := by
      rw [max_eq_left (by norm_num), max_eq_left (by norm_num)]
    rw [h2] at hc
    have := hc.2
    norm_num at this

/-- C2 (amended): for every scene that supplies a complete, valid timeline
in which additionally every entry's duration is at least one video frame
(`1/fps`), the computed per-image durations sum to
`max(timelineTotal, explicitSceneDuration, audioDuration)` to within the
code's stretch threshold `1e-3`, the stretch is applied only to the last
entry (all earlier entries are returned as configured), and every
individual duration is at least `1/fps`.  (Without the extra lower-bound
hypothesis the sum property fails: the one-frame floor runs after the
stretch and can push the sum above the target, see the counterexample.) -/
theorem timeline_valid_sum (timeline : List TimelineEntry) (images : List String)
    (fps : ℤ) (audio : ℚ) (sceneDuration : Option ℚ) (ds : List ℚ)
    (h : timeline_durations timeline images fps audio sceneDuration = some ds)
    (hmin : ∀ e ∈ timeline, ∀ d, e.duration = some d → 1 / ((max 1 fps : ℤ) : ℚ) ≤ d) :
    |ds.sum - max (max (timelineSumOf timeline) (sceneDuration.getD 0)) audio| ≤ 1/1000
    ∧ (∀ d ∈ ds, 1 / ((max 1 fps : ℤ) : ℚ) ≤ d)
    ∧ ∃ entries ordered, parseEntries timeline = some entries
        ∧ extractDurations images entries = some (ordered, [])
        ∧ ds.length = ordered.length
        ∧ ds.dropLast = ordered.dropLast := by
  cases timeline with
  | nil => simp [timeline_durations] at h
  | cons e0 tl0 =>
    simp only [timeline_durations, List.isEmpty_cons, Bool.false_eq_true, if_false] at h
    rcases hP : parseEntries (e0 :: tl0) with _ | entries
    · simp [hP] at h
    · rw [hP] at h
      simp only [] at h
      rcases hE : extractDurations images entries with _ | ⟨ordered, remaining⟩
      · rw [hE] at h
        simp at h
      · rw [hE] at h
        simp only [] at h
        by_cases hrem : remaining.isEmpty
        · have hremnil : remaining = [] := List.isEmpty_iff.mp hrem
          rw [if_neg (by simp [hrem])] at h
          simp only [Option.some.injEq] at h
          obtain ⟨hsumP, hlenP, hmemP⟩ := parseEntries_spec (e0 :: tl0) entries hP
          obtain ⟨hsumX, hlenX, hremX, hmemX⟩ :=
            extractDurations_spec images entries remaining ordered hE
          subst hremnil
          simp only [List.map_nil, List.sum_nil, add_zero, List.length_nil,
            zero_add] at hsumX hremX
          have hOrdSum : ordered.sum = timelineSumOf (e0 :: tl0) := by
            rw [hsumX, hsumP]
          have hminO : ∀ x ∈ ordered, 1 / ((max 1 fps : ℤ) : ℚ) ≤ x := by
            intro x hx
            obtain ⟨nm, hnm⟩ := hmemX x hx
            obtain ⟨en, hen, hend⟩ := hmemP (nm, x) hnm
            exact hmin en hen x hend
          have hordlen : 1 ≤ ordered.length := by
            rw [hlenX, hremX, hlenP]
            simp
          have hordne : ordered ≠ [] := by
            intro hcon
            rw [hcon] at hordlen
            simp at hordlen
          rw [if_neg (by simp [List.isEmpty_iff, hordne])] at h
          by_cases hδ : max (max ordered.sum (sceneDuration.getD 0)) audio - ordered.sum
              > 1/1000
          · rw [if_pos hδ] at h
            have h0δ : (0:ℚ) ≤ max (max ordered.sum (sceneDuration.getD 0)) audio
                - ordered.sum := le_of_lt (lt_trans (by norm_num) hδ)
            have hlow : ∀ x ∈ addToLast (max (max ordered.sum (sceneDuration.getD 0)) audio
                - ordered.sum) ordered, 1 / ((max 1 fps : ℤ) : ℚ) ≤ x :=
              addToLast_lower _ _ h0δ ordered hminO
            rw [floorAll_eq_self _ _ hlow] at h
            subst h
            refine ⟨?_, hlow, entries, ordered, rfl, hE, addToLast_length _ _,
              addToLast_dropLast _ _⟩
            rw [addToLast_sum _ ordered hordne, ← hOrdSum]
            simp
          · rw [if_neg hδ] at h
            rw [floorAll_eq_self _ _ hminO] at h
            subst h
            refine ⟨?_, hminO, entries, ordered, rfl, hE, rfl, rfl⟩
            rw [← hOrdSum]
            have hle : ordered.sum ≤ max (max ordered.sum (sceneDuration.getD 0)) audio :=
              le_trans (le_max_left _ _) (le_max_left _ _)
            rw [abs_sub_comm, abs_of_nonneg (sub_nonneg.mpr hle)]
            exact not_lt.mp hδ
        · rw [if_pos (by simpa using hrem)] at h
          simp at h

theorem timeline_valid_sum_witness :
    timeline_durations demoTimeline ["a"] 30 5 none = some [5]
    ∧ |([(5:ℚ)] : List ℚ).sum
        - max (max (timelineSumOf demoTimeline) ((none : Option ℚ).getD 0)) 5| ≤ 1/1000 := by
  have h : timeline_durations demoTimeline ["a"] 30 5 none = some [5] := by
    with_unfolding_all rfl
  refine ⟨h, (timeline_valid_sum demoTimeline ["a"] 30 5 none [5] h ?_).1⟩
  intro e he d hd
  simp only [demoTimeline, List.mem_singleton] at he
  subst he
  simp only [Option.some.injEq] at hd
  subst hd
  have h30 : ((max 1 (30:ℤ) : ℤ) : ℚ) = 30 := by norm_num
  rw [h30]
  norm_num

/-! ### C7: the Azure retry loop -/

theorem azureGo_attempts_le (outcome : ℕ → AzureAttempt) (bo : ℚ) (r : ℕ) :
    ∀ (fuel a : ℕ) (e : String),
    (azureGo outcome bo r a fuel e).attemptsMade ≤ fuel := by
  intro fuel
  induction fuel with
  | zero => intro a e; simp [azureGo]
  | succ k ih =>
    intro a e
    cases ho : outcome a with
    | success => simp [azureGo, ho]
    | failure m =>
      simp only [azureGo, ho]
      have := ih (a + 1) m
      omega

theorem azureGo_first_success (outcome : ℕ → AzureAttempt) (bo : ℚ) (r : ℕ) :
    ∀ (fuel a k : ℕ) (e : String),
    a ≤ k → k < a + fuel → k ≤ r → outcome k = AzureAttempt.success →
    (∀ j, a ≤ j → j < k → outcome j ≠ AzureAttempt.success) →
    azureGo outcome bo r a fuel e
      = ⟨Except.ok (), k - a + 1, (List.range' a (k - a)).map (fun j => bo ^ j)⟩ := by
  intro fuel
  induction fuel with
  | zero => intro a k e h1 h2 _ _ _; omega
  | succ fl ih =>
    intro a k e h1 h2 hkr hk hprev
    by_cases hak : a = k
    · subst hak
      simp only [azureGo, hk]
      have hz : a - a = 0 := by omega
      rw [hz, List.range'_zero]
      rfl
    · have ha : a < k := lt_of_le_of_ne h1 hak
      cases ho : outcome a with
      | success => exact absurd ho (hprev a le_rfl ha)
      | failure m =>
        have har : a < r := lt_of_lt_of_le ha hkr
        simp only [azureGo, ho, if_pos har]
        rw [ih (a + 1) k m (by omega) (by omega) hkr hk
          (fun j hj1 hj2 => hprev j (by omega) hj2)]
        have h1' : 1 + (k - (a + 1) + 1) = k - a + 1 := by omega
        have h2' : List.range' a (k - a) = a :: List.range' (a + 1) (k - (a + 1)) := by
          have hka : k - a = (k - (a + 1)) + 1 := by omega
          rw [hka, List.range'_succ]
        rw [h2']
        simp [h1']

theorem azureGo_all_fail (outcome : ℕ → AzureAttempt) (bo : ℚ) (r : ℕ) :
    ∀ (fuel a : ℕ) (e : String),
    1 ≤ fuel → a + fuel = r + 1 →
    (∀ j, a ≤ j → j < a + fuel → outcome j ≠ AzureAttempt.success) →
    azureGo outcome bo r a fuel e
      = ⟨Except.error (failMsg (outcome r)), fuel,
          (List.range' a (fuel - 1)).map (fun j => bo ^ j)⟩ := by
  intro fuel
  induction fuel with
  | zero => intro a e h; omega
  | succ fl ih =>
    intro a e _ hsum hall
    cases ho : outcome a with
    | success => exact absurd ho (hall a le_rfl (by omega))
    | failure m =>
      rcases Nat.eq_zero_or_pos fl with hfl | hfl
      · subst hfl
        have har : a = r := by omega
        simp only [azureGo, ho, if_neg (by omega : ¬ a < r)]
        subst har
        rw [ho]
        rfl
      · have har : a < r := by omega
        simp only [azureGo, ho, if_pos har]
        rw [ih (a + 1) m (by omega) (by omega)
          (fun j hj1 hj2 => hall j (by omega) (by omega))]
        have h2' : List.range' a (fl + 1 - 1) = a :: List.range' (a + 1) (fl - 1) := by
          have hfe : fl + 1 - 1 = (fl - 1) + 1 := by omega
          rw [hfe, List.range'_succ]
        rw [h2']
        simp
        omega

/-- C7: with `retries = r ≥ 1`, `synthesize_azure` makes at most
`max(1, r)` attempts, sleeps `backoff ^ attempt` seconds between each pair
of consecutive attempts, returns as soon as an attempt succeeds (after
exactly `k` attempts when attempt `k` is the first success), and raises
the last observed error when every attempt fails. -/
theorem azure_retry_behavior (outcome : ℕ → AzureAttempt) (bo : ℚ) (r : ℕ)
    (hr : 1 ≤ r) :
    (synthesize_azure_loop outcome bo r).attemptsMade ≤ max 1 r
    ∧ (∀ k, 1 ≤ k → k ≤ r → outcome k = AzureAttempt.success →
        (∀ j, 1 ≤ j → j < k → outcome j ≠ AzureAttempt.success) →
        synthesize_azure_loop outcome bo r
          = ⟨Except.ok (), k, (List.range' 1 (k - 1)).map (fun j => bo ^ j)⟩)
    ∧ ((∀ k, 1 ≤ k → k ≤ r → outcome k ≠ AzureAttempt.success) →
        synthesize_azure_loop outcome bo r
          = ⟨Except.error (failMsg (outcome r)), r,
              (List.range' 1 (r - 1)).map (fun j => bo ^ j)⟩) := by
  have hmax : max 1 r = r := by omega
  refine ⟨azureGo_attempts_le outcome bo r (max 1 r) 1 "", ?_, ?_⟩
  · intro k h1 h2 hk hprev
    have hres := azureGo_first_success outcome bo r (max 1 r) 1 k "" h1 (by omega) h2 hk
      (fun j hj1 hj2 => hprev j hj1 hj2)
    rw [synthesize_azure_loop, hres]
    have hkk : k - 1 + 1 = k := by omega
    rw [hkk]
  · intro hfail
    have hres := azureGo_all_fail outcome bo r (max 1 r) 1 "" (by omega) (by omega)
      (fun j hj1 hj2 => hfail j hj1 (by omega))
    rw [synthesize_azure_loop, hres, hmax]

theorem azure_retry_behavior_witness :
    synthesize_azure_loop
        (fun k => if k = 2 then AzureAttempt.success else AzureAttempt.failure "boom") 2 3
      = ⟨Except.ok (), 2, (List.range' 1 1).map (fun j => (2:ℚ) ^ j)⟩ := by
  have h := (azure_retry_behavior
    (fun k => if k = 2 then AzureAttempt.success else AzureAttempt.failure "boom") 2 3
    (by norm_num)).2.1 2 (by norm_num) (by norm_num) (by norm_num) ?_
  · exact h
  · intro j hj1 hj2
    have hj : j = 1 := by omega
    subst hj
    simp

end VideoStitch
